import Mathlib

/-!
Verification development for the audio-flamingo repository: a Modal serverless
deployment (src/modal_deploy/modal_app.py) exposing four music-understanding
HTTP routes, plus a command-line client (src/musicmind.py).

The embedding is shallow: the external model call (processor plus
model.generate) and the librosa feature extraction are modelled as components
of an environment record, since they are third-party library calls; everything
the repository itself does (prompt defaulting, the try/except around feature
extraction, response dictionary construction, the route bodies with their
temp-file lifecycle, and the CLI control flow of main) is translated
definition by definition from the source.
-/

/-- JSON-like values appearing in the dictionaries returned by the server
methods.  Numbers are modelled as rationals (Python floats). -/
inductive JsonVal where
  | str (s : String)
  | num (q : ℚ)
  | bool (b : Bool)
deriving DecidableEq

/-- A JSON object, as the Python dicts built by the server methods: an
association list from field name to value. -/
abbrev JsonObj := List (String × JsonVal)

/-- Result of librosa.load followed by librosa.beat.beat_track on one file:
the estimated tempo, the number of loaded samples (len of y) and the sample
rate sr. -/
structure AudioFeatures where
  tempo : ℚ
  samples : ℕ
  sr : ℕ
deriving DecidableEq

/-- Environment abstracting the two external libraries used by the
AudioFlamingoMusic methods:
  * generate prompt path - the whole processor.apply_chat_template /
    model.generate / batch_decode pipeline, returning the generated text or
    raising (Except.error);
  * features path - the librosa.load + beat_track block, returning none when
    any of those calls raises. -/
structure ModelEnv where
  generate : String → String → Except String String
  features : String → Option AudioFeatures

/-- The built-in prompt of analyze_music, used when the caller passes no
prompt (modal_app.py lines 100-107). -/
def defaultAnalyzePrompt : String :=
  "Analyze this music and provide:\n            1. Genre and style\n            2. Mood and energy level (1-10)\n            3. Best use case (party, chill, workout, etc.)\n            4. Similar artists/tracks\n            5. Production notes (tempo, key, instrumentation)\n            "

/-- The fixed party prompt of party_vibe_check (modal_app.py lines 157-160). -/
def partyPrompt : String :=
  "Rate this track for a party (1-10) and explain why.\n        Consider: energy, danceability, crowd appeal, drop quality.\n        Give a one-line verdict like \"🔥 BANGER - Drop this at peak time!\" or \"😴 Skip - Too chill\"\n        "

/-- The fixed caption prompt of generate_caption (modal_app.py lines 201-204). -/
def captionPrompt : String :=
  "Create a catchy social media caption for this track.\n        Make it fun, include emojis, and capture the vibe.\n        Examples: \"This drop hits different 🚀\", \"Late night drives only 🌙\"\n        "

/-- The fixed instruction of transcribe_lyrics (modal_app.py line 173). -/
def transcribePrompt : String :=
  "Transcribe all lyrics from this song accurately."

/-- The prompt actually used by analyze_music: the argument if given, else the
built-in default (modal_app.py lines 100-107). -/
def promptOf (prompt : Option String) : String :=
  prompt.getD defaultAnalyzePrompt

/-- The try/except feature-extraction block of analyze_music (modal_app.py
lines 139-146): on success tempo is the beat-track estimate and duration is
len of y divided by sr; any raised exception yields tempo = 0, duration = 0. -/
def featPair (env : ModelEnv) (audio_path : String) : ℚ × ℚ :=
  match env.features audio_path with
  | some f => (f.tempo, (f.samples : ℚ) / (f.sr : ℚ))
  | none => (0, 0)

/-- The dictionary literal returned by analyze_music (modal_app.py lines
148-152): tempo_bpm is float of tempo when tempo is truthy, else 0. -/
def analysisObj (response : String) (td : ℚ × ℚ) : JsonObj :=
  [("analysis", .str response),
   ("tempo_bpm", .num (if td.1 = 0 then 0 else td.1)),
   ("duration_seconds", .num td.2)]

/-- analyze_music (modal_app.py lines 96-152): run generation with the chosen
prompt, then extract audio features inside a try/except that maps any failure
to tempo = 0, duration = 0; finally tempo_bpm is float of tempo if tempo is
truthy else 0, and duration_seconds is len of y divided by sr. -/
def analyze_music (env : ModelEnv) (audio_path : String)
    (prompt : Option String) : Except String JsonObj :=
  match env.generate (promptOf prompt) audio_path with
  | .error e => .error e
  | .ok response => .ok (analysisObj response (featPair env audio_path))

/-- party_vibe_check (modal_app.py lines 154-164): call analyze_music with the
fixed party prompt and add the key vibe_check mapped to True. -/
def party_vibe_check (env : ModelEnv) (audio_path : String) :
    Except String JsonObj :=
  (analyze_music env audio_path (some partyPrompt)).map
    (fun r => r ++ [("vibe_check", .bool true)])

/-- transcribe_lyrics (modal_app.py lines 166-196): run generation with the
fixed transcription instruction and wrap the text in a dict with the single
key lyrics. -/
def transcribe_lyrics (env : ModelEnv) (audio_path : String) :
    Except String JsonObj :=
  (env.generate transcribePrompt audio_path).map
    (fun response => [("lyrics", .str response)])

/-- generate_caption (modal_app.py lines 198-206): analyze_music with the
fixed caption prompt. -/
def generate_caption (env : ModelEnv) (audio_path : String) :
    Except String JsonObj :=
  analyze_music env audio_path (some captionPrompt)

/-- A file-system effect performed by a route body: the creation (with write
of the uploaded bytes) of the named temporary file, or its removal by
os.unlink. -/
inductive FsEvent where
  | create (path : String) (content : String)
  | unlink (path : String)
deriving DecidableEq

/-- What one HTTP route invocation produces: the response status code, the
JSON body, and the trace of file-system effects on the temp file. -/
structure RouteResult where
  status : ℕ
  body : JsonObj
  events : List FsEvent
deriving DecidableEq

/-- The shared body of the four task endpoints (modal_app.py lines 222-284):
write the upload to a fresh named temporary file (delete=False), then inside
try return JSONResponse of the inference result, on any exception return
JSONResponse of an error object with status 500, and in finally unlink the
temporary file.  tmpName is the fresh path chosen by NamedTemporaryFile;
infer is the remote inference call performed in the try block. -/
def endpointHandler (tmpName : String) (content : String)
    (infer : String → Except String JsonObj) : RouteResult :=
  match infer tmpName with
  | .ok r => ⟨200, r, [.create tmpName content, .unlink tmpName]⟩
  | .error e =>
    ⟨500, [("error", .str e)], [.create tmpName content, .unlink tmpName]⟩

/-- The POST /analyze route (modal_app.py lines 222-236). -/
def routeAnalyze (env : ModelEnv) (tmpName content : String)
    (prompt : Option String) : RouteResult :=
  endpointHandler tmpName content (fun p => analyze_music env p prompt)

/-- The POST /party-vibe route (modal_app.py lines 238-252). -/
def routePartyVibe (env : ModelEnv) (tmpName content : String) : RouteResult :=
  endpointHandler tmpName content (party_vibe_check env)

/-- The POST /transcribe route (modal_app.py lines 254-268). -/
def routeTranscribe (env : ModelEnv) (tmpName content : String) : RouteResult :=
  endpointHandler tmpName content (transcribe_lyrics env)

/-- The POST /caption route (modal_app.py lines 270-284). -/
def routeCaption (env : ModelEnv) (tmpName content : String) : RouteResult :=
  endpointHandler tmpName content (generate_caption env)

/-- The multipart form data built by MusicMind.analyze (musicmind.py line 44):
data is the singleton prompt mapping if prompt is truthy (a non-None,
non-empty string), else the empty mapping. -/
def analyzeFormData : Option String → List (String × String)
  | none => []
  | some p => if p = "" then [] else [("prompt", p)]

/-- How the server side of /analyze recovers the prompt from the received
form data: FastAPI binds prompt = Form(None), i.e. the value of the prompt
field when present and None otherwise (modal_app.py line 223). -/
def promptFromForm (data : List (String × String)) : Option String :=
  data.lookup "prompt"

/-- Escaping of one character as performed by the json serializer on strings:
quote, backslash, newline, tab and carriage return become two-character
escapes; other characters are emitted literally. -/
def escChar (c : Char) : List Char :=
  if c = '"' then ['\\', '"']
  else if c = '\\' then ['\\', '\\']
  else if c = '\n' then ['\\', 'n']
  else if c = '\t' then ['\\', 't']
  else if c = '\r' then ['\\', 'r']
  else [c]

/-- Escape a whole character list. -/
def escapeChars : List Char → List Char
  | [] => []
  | c :: cs => escChar c ++ escapeChars cs

/-- Serialize a string as a quoted JSON string literal. -/
def dumpStr (s : String) : List Char :=
  '"' :: (escapeChars s.data ++ ['"'])

/-- A value of the wire-level JSON documents exchanged between server and
client: a string, a number (kept as its decimal token, the way a parsed float
reserializes to the same token), or a boolean. -/
inductive WVal where
  | s (v : String)
  | n (tok : String)
  | b (v : Bool)
deriving DecidableEq

/-- A wire-level flat JSON object, the shape of every response body this
service produces. -/
abbrev WObj := List (String × WVal)

/-- Serialize one wire value. -/
def dumpWVal : WVal → List Char
  | .s v => dumpStr v
  | .n tok => tok.data
  | .b true => ['t', 'r', 'u', 'e']
  | .b false => ['f', 'a', 'l', 's', 'e']

/-- Serialize one key/value member: quoted key, colon, space, value.  This is
the member layout of json.dumps with indent=2. -/
def dumpField (k : String) (v : WVal) : List Char :=
  dumpStr k ++ ':' :: ' ' :: dumpWVal v

/-- Serialize the members of an object, separated by a comma, a newline and
the two-space indent, as json.dumps with indent=2 lays them out. -/
def dumpFields : WObj → List Char
  | [] => []
  | [(k, v)] => dumpField k v
  | (k, v) :: fs => dumpField k v ++ ',' :: '\n' :: ' ' :: ' ' :: dumpFields fs

/-- json.dumps with indent=2 on a flat object: braces on their own lines,
each member indented by two spaces. -/
def dumpsIndent : WObj → List Char
  | [] => ['\x7b', '\x7d']
  | fs => '\x7b' :: '\n' :: ' ' :: ' ' :: (dumpFields fs ++ '\n' :: ['\x7d'])

/-- The text printed by the CLI under the json flag: json.dumps of the parsed
response with indent=2 (musicmind.py lines 159, 180, 191, 201, 210). -/
def renderJsonString (v : WObj) : String :=
  String.mk (dumpsIndent v)

/-- JSON insignificant whitespace. -/
def isWsChar (c : Char) : Bool :=
  c == ' ' || c == '\n' || c == '\t' || c == '\r'

/-- Drop leading insignificant whitespace. -/
def skipWs : List Char → List Char
  | [] => []
  | c :: cs => if isWsChar c then skipWs cs else c :: cs

/-- Inverse of the character escapes accepted inside a string literal. -/
def unescChar (c : Char) : Option Char :=
  if c = '"' then some '"'
  else if c = '\\' then some '\\'
  else if c = 'n' then some '\n'
  else if c = 't' then some '\t'
  else if c = 'r' then some '\r'
  else none

/-- Parse the body of a string literal after the opening quote, up to and
including the closing quote; returns the decoded characters and the rest. -/
def parseStrBody : List Char → Option (List Char × List Char)
  | [] => none
  | c :: rest =>
    if c = '"' then some ([], rest)
    else if c = '\\' then
      match rest with
      | [] => none
      | d :: rest2 =>
        match unescChar d, parseStrBody rest2 with
        | some u, some (s, r) => some (u :: s, r)
        | _, _ => none
    else
      match parseStrBody rest with
      | some (s, r) => some (c :: s, r)
      | none => none

/-- Characters that may occur in a JSON number token. -/
def isNumChar (c : Char) : Bool :=
  c.isDigit || c == '-' || c == '+' || c == '.' || c == 'e' || c == 'E'

/-- Parse one wire value: a string literal, a boolean literal, or a maximal
run of number characters. -/
def parseWVal : List Char → Option (WVal × List Char)
  | [] => none
  | c :: rest =>
    if c = '"' then
      match parseStrBody rest with
      | some (s, r) => some (.s (String.mk s), r)
      | none => none
    else if c = 't' then
      match rest with
      | 'r' :: 'u' :: 'e' :: r => some (.b true, r)
      | _ => none
    else if c = 'f' then
      match rest with
      | 'a' :: 'l' :: 's' :: 'e' :: r => some (.b false, r)
      | _ => none
    else if isNumChar c then
      some (.n (String.mk (c :: rest.takeWhile isNumChar)), rest.dropWhile isNumChar)
    else none

/-- Parse a nonempty member list: key string, colon, value, then either a
comma and further members or the closing brace.  The fuel argument bounds the
number of members and makes the recursion structural. -/
def parseFields : ℕ → List Char → Option (WObj × List Char)
  | 0, _ => none
  | fuel + 1, cs =>
    match cs with
    | [] => none
    | c :: rest =>
      if c = '"' then
        match parseStrBody rest with
        | some (k, r1) =>
          match skipWs r1 with
          | [] => none
          | c2 :: r3 =>
            if c2 = ':' then
              match parseWVal (skipWs r3) with
              | some (v, r4) =>
                match skipWs r4 with
                | [] => none
                | c3 :: r6 =>
                  if c3 = ',' then
                    match parseFields fuel (skipWs r6) with
                    | some (fs, r7) => some ((String.mk k, v) :: fs, r7)
                    | none => none
                  else if c3 = '\x7d' then some ([(String.mk k, v)], r6)
                  else none
              | none => none
            else none
        | none => none
      else none

/-- Parse a flat JSON object from a character list, returning the object and
the unconsumed suffix. -/
def parseObjChars (cs : List Char) : Option (WObj × List Char) :=
  match cs with
  | [] => none
  | c :: rest =>
    if c = '\x7b' then
      match skipWs rest with
      | [] => none
      | c2 :: r2 =>
        if c2 = '\x7d' then some ([], r2)
        else parseFields ((c2 :: r2).length + 1) (c2 :: r2)
    else none

/-- Parse a complete JSON document: a flat object with nothing after it. -/
def parseObj (s : String) : Option WObj :=
  match parseObjChars s.data with
  | some (o, []) => some o
  | _ => none

/-- Well-formedness of a number token: nonempty, starting with a digit or a
minus sign, all remaining characters number characters. -/
def numTokWF (tok : String) : Bool :=
  match tok.data with
  | [] => false
  | c :: rest => (c.isDigit || c == '-') && rest.all isNumChar

/-- Well-formedness of a wire value: only number tokens are constrained. -/
def wvalWF : WVal → Bool
  | .n tok => numTokWF tok
  | _ => true

/-- Well-formedness of a wire object: every member value is well-formed. -/
def wobjWF (o : WObj) : Bool :=
  o.all (fun kv => wvalWF kv.2)

/-- The five CLI commands accepted by the positional command argument
(musicmind.py lines 120-124). -/
inductive Cmd where
  | analyze
  | partyVibe
  | transcribe
  | caption
  | health
deriving DecidableEq

/-- The parsed command line of the client: the command, the optional
positional audio file path, the optional prompt flag and the json flag
(musicmind.py lines 106-149; the model starts after argument parsing). -/
structure CliArgs where
  command : Cmd
  audioFile : Option String
  prompt : Option String
  jsonFlag : Bool

/-- Environment of one client invocation: which local files exist, and the
outcome of the (at most one) network call per route, as the parsed JSON body
on success or a raised requests exception on failure. -/
structure CliEnv where
  fileExists : String → Bool
  net : Cmd → Except String WObj

/-- Observable outcome of one client invocation: the process exit code, the
network calls performed, and the printed lines. -/
structure CliRun where
  exitCode : ℕ
  calls : List Cmd
  output : List String

/-- How a response value is interpolated into an f-string by print: strings
verbatim, numbers as their token, booleans in Python spelling. -/
def renderWVal : WVal → String
  | .s v => v
  | .n tok => tok
  | .b b => if b then "True" else "False"

/-- Python format spec .1f applied to a response field: defined on numbers
(abstracted as the token) and on booleans (numeric in Python), raises a
ValueError on strings, which the surrounding except turns into a failure. -/
def formatFixed1 : WVal → Option String
  | .n tok => some tok
  | .b b => some (if b then "1.0" else "0.0")
  | .s _ => none

/-- The human-readable success output of each command (musicmind.py lines
161, 182-186, 193-196, 203-205, 212-214): returns none when a field access
or a numeric format raises, which the enclosing try/except maps to exit 1. -/
def renderHuman (cmd : Cmd) (r : WObj) : Option (List String) :=
  match cmd with
  | .analyze => do
    let a ← r.lookup "analysis"
    let t ← r.lookup "tempo_bpm"
    let ts ← formatFixed1 t
    let d ← r.lookup "duration_seconds"
    let ds ← formatFixed1 d
    pure ["MUSIC ANALYSIS", renderWVal a, "Tempo: " ++ ts ++ " BPM",
          "Duration: " ++ ds ++ "s"]
  | .partyVibe => do
    let a ← r.lookup "analysis"
    let t ← r.lookup "tempo_bpm"
    let ts ← formatFixed1 t
    pure ["PARTY VIBE CHECK", renderWVal a, "Tempo: " ++ ts ++ " BPM"]
  | .transcribe => do
    let l ← r.lookup "lyrics"
    pure ["LYRICS TRANSCRIPTION", renderWVal l]
  | .caption => do
    let a ← r.lookup "analysis"
    pure ["SOCIAL MEDIA CAPTION", renderWVal a]
  | .health => do
    let m ← r.lookup "model"
    pure [renderWVal m ++ " is healthy"]

/-- The shared body of the four audio commands in main (musicmind.py lines
167-221): require the audio file argument, require the file to exist, then
perform the one network call inside try; any raised exception prints a
message and exits 1, success prints json or the human rendering and returns
(exit 0). -/
def runFileCommand (env : CliEnv) (args : CliArgs) (cmd : Cmd) : CliRun :=
  match args.audioFile with
  | none => ⟨1, [], ["Error: audio_file required for this command"]⟩
  | some path =>
    if env.fileExists path then
      match env.net cmd with
      | .ok r =>
        if args.jsonFlag then ⟨0, [cmd], [renderJsonString r]⟩
        else
          match renderHuman cmd r with
          | some lines => ⟨0, [cmd], lines⟩
          | none => ⟨1, [cmd], ["Error"]⟩
      | .error e => ⟨1, [cmd], ["API Error: " ++ e]⟩
    else ⟨1, [], ["Error: File not found: " ++ path]⟩

/-- main (musicmind.py lines 106-221), from the parsed arguments on: the
health command runs first, before any file check, inside its own try/except;
the other commands go through runFileCommand.  sys.exit(1) is exit code 1, a
normal return is exit code 0. -/
def mainRun (env : CliEnv) (args : CliArgs) : CliRun :=
  match args.command with
  | .health =>
    match env.net .health with
    | .ok r =>
      if args.jsonFlag then ⟨0, [.health], [renderJsonString r]⟩
      else
        match renderHuman .health r with
        | some lines => ⟨0, [.health], lines⟩
        | none => ⟨1, [.health], ["Health check failed"]⟩
    | .error e => ⟨1, [.health], ["Health check failed: " ++ e]⟩
  | cmd => runFileCommand env args cmd

/-- Characterization of the invocations of main that succeed: the reached
network call returned ok and the printing step raised nothing.  Every other
invocation is a failure. -/
def cliSuccess (env : CliEnv) (args : CliArgs) : Bool :=
  match args.command with
  | .health =>
    match env.net .health with
    | .ok r => args.jsonFlag || (renderHuman .health r).isSome
    | .error _ => false
  | cmd =>
    match args.audioFile with
    | none => false
    | some path =>
      env.fileExists path &&
        match env.net cmd with
        | .ok r => args.jsonFlag || (renderHuman cmd r).isSome
        | .error _ => false

/-- A model environment whose generation call raises on every input. -/
def envRaise : ModelEnv :=
  ⟨fun _ _ => .error "boom", fun _ => none⟩

/-- A model environment where generation succeeds and feature extraction
succeeds everywhere: tempo 120 bpm, 441000 samples at 22050 Hz (20 s). -/
def envOk : ModelEnv :=
  ⟨fun _ _ => .ok "great track", fun _ => some ⟨120, 441000, 22050⟩⟩

/-- A model environment where generation succeeds everywhere and feature
extraction raises on bad.wav but succeeds elsewhere. -/
def envMixed : ModelEnv :=
  ⟨fun _ _ => .ok "text",
   fun p => if p = "bad.wav" then none else some ⟨120, 441000, 22050⟩⟩

/-- A client environment where no local file exists and the service is
healthy. -/
def cliEnvHealthOnly : CliEnv :=
  ⟨fun _ => false,
   fun _ => .ok [("model", .s "audio-flamingo-3"), ("status", .s "healthy")]⟩

/-- A sample well-formed wire response body. -/
def wObjSample : WObj :=
  [("analysis", .s "nice"), ("tempo_bpm", .n "120.0"), ("vibe_check", .b true)]

/-- A client environment where every file exists and every route answers
with the sample body. -/
def cliEnvJson : CliEnv :=
  ⟨fun _ => true, fun _ => .ok wObjSample⟩

/-- A client environment where every file exists and every network call
raises. -/
def cliEnvErr : CliEnv :=
  ⟨fun _ => true, fun _ => .error "timeout"⟩

theorem endpointHandler_events (tmpName content : String)
    (infer : String → Except String JsonObj) :
    (endpointHandler tmpName content infer).events =
      [.create tmpName content, .unlink tmpName] := by
  unfold endpointHandler
  cases infer tmpName <;> rfl

/-- Claim C1: for every POST request to any of the four task endpoints
(/analyze, /party-vibe, /transcribe, /caption), if the inference handler
raises any exception, the server does not crash (the route body still
produces a response) and the response is a JSON object with an error field
carrying HTTP status 500. -/
theorem spec_c1 (env : ModelEnv) (tmpName content : String)
    (prompt : Option String) (e : String) :
    (analyze_music env tmpName prompt = .error e →
      (routeAnalyze env tmpName content prompt).status = 500 ∧
      (routeAnalyze env tmpName content prompt).body = [("error", .str e)]) ∧
    (party_vibe_check env tmpName = .error e →
      (routePartyVibe env tmpName content).status = 500 ∧
      (routePartyVibe env tmpName content).body = [("error", .str e)]) ∧
    (transcribe_lyrics env tmpName = .error e →
      (routeTranscribe env tmpName content).status = 500 ∧
      (routeTranscribe env tmpName content).body = [("error", .str e)]) ∧
    (generate_caption env tmpName = .error e →
      (routeCaption env tmpName content).status = 500 ∧
      (routeCaption env tmpName content).body = [("error", .str e)]) := by
  refine ⟨fun h => ?_, fun h => ?_, fun h => ?_, fun h => ?_⟩ <;>
    simp [routeAnalyze, routePartyVibe, routeTranscribe, routeCaption,
          endpointHandler, h]

/-- Witness for C1: in the environment whose generation call raises, every
route answers 500 with the error body. -/
theorem spec_c1_witness :
    analyze_music envRaise "tmp.wav" none = .error "boom" ∧
    party_vibe_check envRaise "tmp.wav" = .error "boom" ∧
    transcribe_lyrics envRaise "tmp.wav" = .error "boom" ∧
    generate_caption envRaise "tmp.wav" = .error "boom" ∧
    (routeAnalyze envRaise "tmp.wav" "bytes" none).status = 500 ∧
    (routePartyVibe envRaise "tmp.wav" "bytes").status = 500 ∧
    (routeTranscribe envRaise "tmp.wav" "bytes").status = 500 ∧
    (routeCaption envRaise "tmp.wav" "bytes").status = 500 := by
  have h := spec_c1 envRaise "tmp.wav" "bytes" none "boom"
  exact ⟨rfl, rfl, rfl, rfl,
         (h.1 rfl).1, (h.2.1 rfl).1, (h.2.2.1 rfl).1, (h.2.2.2 rfl).1⟩

/-- Claim C5: every request to a task endpoint creates exactly one temporary
file and removes it afterwards, whatever the inference outcome: the
file-system trace of each route body is exactly one creation of the
temporary file followed by its removal, for every environment (in particular
both when the inference call succeeds and when it raises). -/
theorem spec_c5 (env : ModelEnv) (tmpName content : String)
    (prompt : Option String) :
    (routeAnalyze env tmpName content prompt).events =
      [.create tmpName content, .unlink tmpName] ∧
    (routePartyVibe env tmpName content).events =
      [.create tmpName content, .unlink tmpName] ∧
    (routeTranscribe env tmpName content).events =
      [.create tmpName content, .unlink tmpName] ∧
    (routeCaption env tmpName content).events =
      [.create tmpName content, .unlink tmpName] :=
  ⟨endpointHandler_events _ _ _, endpointHandler_events _ _ _,
   endpointHandler_events _ _ _, endpointHandler_events _ _ _⟩

theorem transcribe_lyrics_ok_iff (env : ModelEnv) (path : String)
    (r : JsonObj) :
    transcribe_lyrics env path = .ok r ↔
      ∃ resp, env.generate transcribePrompt path = .ok resp ∧
        r = [("lyrics", .str resp)] := by
  unfold transcribe_lyrics
  cases env.generate transcribePrompt path <;> simp [Except.map, eq_comm]

theorem analyze_music_ok_iff (env : ModelEnv) (path : String)
    (prompt : Option String) (r : JsonObj) :
    analyze_music env path prompt = .ok r ↔
      ∃ resp, env.generate (promptOf prompt) path = .ok resp ∧
        r = analysisObj resp (featPair env path) := by
  unfold analyze_music
  cases env.generate (promptOf prompt) path <;> simp [eq_comm]

theorem party_vibe_check_ok_iff (env : ModelEnv) (path : String)
    (r : JsonObj) :
    party_vibe_check env path = .ok r ↔
      ∃ resp, env.generate (promptOf (some partyPrompt)) path = .ok resp ∧
        r = analysisObj resp (featPair env path) ++
              [("vibe_check", .bool true)] := by
  unfold party_vibe_check analyze_music
  cases env.generate (promptOf (some partyPrompt)) path <;>
    simp [Except.map, eq_comm]

/-- Claim C6: every successful call to the /transcribe route returns a JSON
object containing only a lyrics string field, and in particular no tempo_bpm
or duration_seconds field. -/
theorem spec_c6 (env : ModelEnv) (tmpName content : String) :
    ((routeTranscribe env tmpName content).status = 200 →
      ∃ s, (routeTranscribe env tmpName content).body = [("lyrics", .str s)]) ∧
    (∀ r, transcribe_lyrics env tmpName = .ok r →
      ∃ s, r = [("lyrics", .str s)] ∧
        r.lookup "tempo_bpm" = none ∧ r.lookup "duration_seconds" = none) := by
  constructor
  · intro h
    simp only [routeTranscribe, endpointHandler] at h ⊢
    cases hg : transcribe_lyrics env tmpName with
    | error e => simp [hg] at h
    | ok r =>
      simp only [hg]
      obtain ⟨resp, _, hr⟩ := (transcribe_lyrics_ok_iff env tmpName r).mp hg
      exact ⟨resp, by simp [hr]⟩
  · intro r h
    obtain ⟨resp, _, hr⟩ := (transcribe_lyrics_ok_iff env tmpName r).mp h
    exact ⟨resp, by simp [hr, List.lookup]⟩

/-- Witness for C6: in the environment with successful generation, the
transcription route answers 200 and the method returns the lyrics-only
object. -/
theorem spec_c6_witness :
    (routeTranscribe envOk "t.wav" "b").status = 200 ∧
    (∃ s, (routeTranscribe envOk "t.wav" "b").body = [("lyrics", .str s)]) ∧
    transcribe_lyrics envOk "t.wav" = .ok [("lyrics", .str "great track")] ∧
    (∃ s, ([(("lyrics" : String), JsonVal.str "great track")] : JsonObj) =
        [("lyrics", .str s)] ∧
      ([(("lyrics" : String), JsonVal.str "great track")] : JsonObj).lookup
          "tempo_bpm" = none ∧
      ([(("lyrics" : String), JsonVal.str "great track")] : JsonObj).lookup
          "duration_seconds" = none) :=
  ⟨rfl, (spec_c6 envOk "t.wav" "b").1 rfl, rfl,
   (spec_c6 envOk "t.wav" "b").2 [("lyrics", .str "great track")] rfl⟩

/-- Claim C7: the /party-vibe computation is the general analysis invoked
with the fixed built-in party prompt, extended with vibe_check set to true:
the method is definitionally that specialization, the route statuses agree,
a successful route body is the analysis body extended with the vibe_check
member, and every successful result carries analysis, tempo_bpm,
duration_seconds and vibe_check = true. -/
theorem spec_c7 (env : ModelEnv) (audio_path tmpName content : String) :
    party_vibe_check env audio_path =
      (analyze_music env audio_path (some partyPrompt)).map
        (fun r => r ++ [("vibe_check", .bool true)]) ∧
    (routePartyVibe env tmpName content).status =
      (routeAnalyze env tmpName content (some partyPrompt)).status ∧
    ((routePartyVibe env tmpName content).status = 200 →
      (routePartyVibe env tmpName content).body =
        (routeAnalyze env tmpName content (some partyPrompt)).body ++
          [("vibe_check", .bool true)]) ∧
    (∀ r, party_vibe_check env audio_path = .ok r →
      (r.lookup "analysis").isSome ∧ (r.lookup "tempo_bpm").isSome ∧
      (r.lookup "duration_seconds").isSome ∧
      r.lookup "vibe_check" = some (.bool true)) := by
  refine ⟨rfl, ?_, ?_, ?_⟩
  · simp only [routePartyVibe, routeAnalyze, endpointHandler,
      party_vibe_check]
    cases analyze_music env tmpName (some partyPrompt) <;> rfl
  · simp only [routePartyVibe, routeAnalyze, endpointHandler,
      party_vibe_check]
    cases analyze_music env tmpName (some partyPrompt) with
    | error e => intro h; simp [Except.map] at h
    | ok r => intro _; rfl
  · intro r h
    obtain ⟨resp, _, hr⟩ := (party_vibe_check_ok_iff env audio_path r).mp h
    subst hr
    simp [analysisObj, List.lookup]

/-- Witness for C7: in the environment with successful generation, the
party-vibe route answers 200 with the extended analysis body, and the
successful method result carries the four fields. -/
theorem spec_c7_witness :
    (routePartyVibe envOk "t.wav" "b").status = 200 ∧
    (routePartyVibe envOk "t.wav" "b").body =
      (routeAnalyze envOk "t.wav" "b" (some partyPrompt)).body ++
        [("vibe_check", .bool true)] ∧
    party_vibe_check envOk "t.wav" =
      .ok (analysisObj "great track" (featPair envOk "t.wav") ++
            [("vibe_check", .bool true)]) ∧
    ((analysisObj "great track" (featPair envOk "t.wav") ++
        [(("vibe_check" : String), JsonVal.bool true)]).lookup
        "vibe_check" = some (.bool true)) := by
  have h := spec_c7 envOk "t.wav" "t.wav" "b"
  refine ⟨rfl, h.2.2.1 rfl, rfl, ?_⟩
  exact (h.2.2.2 _ rfl).2.2.2

theorem endpointHandler_ok (tmpName content : String)
    (infer : String → Except String JsonObj)
    (h : (endpointHandler tmpName content infer).status = 200) :
    ∃ r, infer tmpName = .ok r ∧
      (endpointHandler tmpName content infer).body = r := by
  unfold endpointHandler at h ⊢
  cases hg : infer tmpName with
  | error e => simp [hg] at h
  | ok r => exact ⟨r, rfl, by simp [hg]⟩

theorem analysisObj_lookup_tempo (resp : String) (td : ℚ × ℚ)
    (tail : JsonObj) :
    (analysisObj resp td ++ tail).lookup "tempo_bpm" =
      some (.num (if td.1 = 0 then 0 else td.1)) := by
  simp [analysisObj, List.lookup]

theorem analysisObj_lookup_duration (resp : String) (td : ℚ × ℚ)
    (tail : JsonObj) :
    (analysisObj resp td ++ tail).lookup "duration_seconds" =
      some (.num td.2) := by
  simp [analysisObj, List.lookup]

theorem featPair_tempo_nonneg (env : ModelEnv) (path : String)
    (hT : ∀ p f, env.features p = some f → 0 ≤ f.tempo) :
    0 ≤ (featPair env path).1 := by
  unfold featPair
  cases hf : env.features path with
  | none => norm_num
  | some f => exact hT _ _ hf

theorem tempo_field_nonneg (t : ℚ) (h : 0 ≤ t) :
    0 ≤ (if t = 0 then 0 else t) := by
  split <;> simp [h]

/-- Claim C2: every result returned by analyze_music (and hence by the
/analyze, /party-vibe and /caption routes) carries a non-negative tempo_bpm
(under the beat-track guarantee that the extracted tempo is non-negative),
tempo_bpm is 0 whenever the feature-extraction step fails, and such a
failure does not prevent the method from returning a result. -/
theorem spec_c2 (env : ModelEnv) (audio_path tmpName content : String)
    (prompt : Option String)
    (hT : ∀ p f, env.features p = some f → 0 ≤ f.tempo) :
    (∀ r, analyze_music env audio_path prompt = .ok r →
      ∃ q, r.lookup "tempo_bpm" = some (.num q) ∧ 0 ≤ q) ∧
    (env.features audio_path = none →
      ∀ r, analyze_music env audio_path prompt = .ok r →
        r.lookup "tempo_bpm" = some (.num 0)) ∧
    (∀ resp, env.generate (promptOf prompt) audio_path = .ok resp →
      ∃ r, analyze_music env audio_path prompt = .ok r) ∧
    ((routeAnalyze env tmpName content prompt).status = 200 →
      ∃ q, (routeAnalyze env tmpName content prompt).body.lookup "tempo_bpm"
          = some (.num q) ∧ 0 ≤ q) ∧
    ((routePartyVibe env tmpName content).status = 200 →
      ∃ q, (routePartyVibe env tmpName content).body.lookup "tempo_bpm"
          = some (.num q) ∧ 0 ≤ q) ∧
    ((routeCaption env tmpName content).status = 200 →
      ∃ q, (routeCaption env tmpName content).body.lookup "tempo_bpm"
          = some (.num q) ∧ 0 ≤ q) := by
  refine ⟨?_, ?_, ?_, ?_, ?_, ?_⟩
  · intro r h
    obtain ⟨resp, _, hr⟩ := (analyze_music_ok_iff env audio_path prompt r).mp h
    subst hr
    refine ⟨_, by simpa using analysisObj_lookup_tempo resp _ [], ?_⟩
    exact tempo_field_nonneg _ (featPair_tempo_nonneg env audio_path hT)
  · intro hf r h
    obtain ⟨resp, _, hr⟩ := (analyze_music_ok_iff env audio_path prompt r).mp h
    subst hr
    have : featPair env audio_path = (0, 0) := by simp [featPair, hf]
    simpa [this] using analysisObj_lookup_tempo resp (0, 0) []
  · intro resp hg
    exact ⟨_, (analyze_music_ok_iff env audio_path prompt _).mpr ⟨resp, hg, rfl⟩⟩
  · intro h
    simp only [routeAnalyze] at h ⊢
    obtain ⟨r, hr, hb⟩ := endpointHandler_ok _ _ _ h
    obtain ⟨resp, _, hrr⟩ := (analyze_music_ok_iff env tmpName prompt r).mp hr
    subst hrr
    rw [hb]
    refine ⟨_, by simpa using analysisObj_lookup_tempo resp _ [], ?_⟩
    exact tempo_field_nonneg _ (featPair_tempo_nonneg env tmpName hT)
  · intro h
    simp only [routePartyVibe] at h ⊢
    obtain ⟨r, hr, hb⟩ := endpointHandler_ok _ _ _ h
    obtain ⟨resp, _, hrr⟩ := (party_vibe_check_ok_iff env tmpName r).mp hr
    subst hrr
    rw [hb]
    refine ⟨_, analysisObj_lookup_tempo resp _ _, ?_⟩
    exact tempo_field_nonneg _ (featPair_tempo_nonneg env tmpName hT)
  · intro h
    simp only [routeCaption] at h ⊢
    obtain ⟨r, hr, hb⟩ := endpointHandler_ok _ _ _ h
    unfold generate_caption at hr
    obtain ⟨resp, _, hrr⟩ :=
      (analyze_music_ok_iff env tmpName (some captionPrompt) r).mp hr
    subst hrr
    rw [hb]
    refine ⟨_, by simpa using analysisObj_lookup_tempo resp _ [], ?_⟩
    exact tempo_field_nonneg _ (featPair_tempo_nonneg env tmpName hT)

/-- Witness for C2: in the mixed environment, extraction fails on bad.wav
and the returned tempo_bpm is 0 there; on good.wav the returned tempo_bpm is
non-negative. -/
theorem spec_c2_witness :
    (∀ p f, envMixed.features p = some f → 0 ≤ f.tempo) ∧
    envMixed.features "bad.wav" = none ∧
    analyze_music envMixed "bad.wav" none =
      .ok (analysisObj "text" (featPair envMixed "bad.wav")) ∧
    (analysisObj "text" (featPair envMixed "bad.wav")).lookup "tempo_bpm" =
      some (.num 0) ∧
    (∃ q, (analysisObj "text" (featPair envMixed "good.wav")).lookup
        "tempo_bpm" = some (.num q) ∧ 0 ≤ q) := by
  have hT : ∀ p f, envMixed.features p = some f → 0 ≤ f.tempo := by
    intro p f h
    by_cases hp : p = "bad.wav" <;> simp [envMixed, hp] at h
    rw [← h]
    norm_num
  refine ⟨hT, rfl, rfl, ?_, ?_⟩
  · exact (spec_c2 envMixed "bad.wav" "t" "c" none hT).2.1 rfl _ rfl
  · exact (spec_c2 envMixed "good.wav" "t" "c" none hT).1 _ rfl

theorem featPair_duration_bounds (env : ModelEnv) (path : String)
    (hF : ∀ p f, env.features p = some f →
      0 < f.sr ∧ f.samples ≤ 30 * f.sr) :
    0 ≤ (featPair env path).2 ∧ (featPair env path).2 ≤ 30 := by
  unfold featPair
  cases hf : env.features path with
  | none => norm_num
  | some f =>
    obtain ⟨hsr, hs⟩ := hF _ _ hf
    constructor
    · positivity
    · rw [div_le_iff₀ (by exact_mod_cast hsr)]
      calc ((f.samples : ℚ)) ≤ ((30 * f.sr : ℕ) : ℚ) := by exact_mod_cast hs
        _ = 30 * (f.sr : ℚ) := by push_cast; ring

/-- Claim C9: analyze_music loads at most the first 30 seconds of samples
(librosa.load is called with duration=30, modelled as the guarantee that the
loaded sample count is at most 30 times the sample rate), so the returned
duration_seconds never exceeds 30; and when feature extraction fails, both
duration_seconds and tempo_bpm are 0. -/
theorem spec_c9 (env : ModelEnv) (audio_path : String)
    (prompt : Option String)
    (hF : ∀ p f, env.features p = some f →
      0 < f.sr ∧ f.samples ≤ 30 * f.sr) :
    (∀ r, analyze_music env audio_path prompt = .ok r →
      ∃ d : ℚ, r.lookup "duration_seconds" = some (.num d) ∧
        0 ≤ d ∧ d ≤ 30) ∧
    (env.features audio_path = none →
      ∀ r, analyze_music env audio_path prompt = .ok r →
        r.lookup "duration_seconds" = some (.num 0) ∧
        r.lookup "tempo_bpm" = some (.num 0)) := by
  constructor
  · intro r h
    obtain ⟨resp, _, hr⟩ := (analyze_music_ok_iff env audio_path prompt r).mp h
    subst hr
    exact ⟨_, by simpa using analysisObj_lookup_duration resp _ [],
           featPair_duration_bounds env audio_path hF⟩
  · intro hf r h
    obtain ⟨resp, _, hr⟩ := (analyze_music_ok_iff env audio_path prompt r).mp h
    subst hr
    have hz : featPair env audio_path = (0, 0) := by simp [featPair, hf]
    constructor
    · simpa [hz] using analysisObj_lookup_duration resp (0, 0) []
    · simpa [hz] using analysisObj_lookup_tempo resp (0, 0) []

/-- Witness for C9: in the mixed environment, the librosa contract holds,
the duration for good.wav (20 seconds of samples) is within the 30 second
cap, and for bad.wav both reported metrics are 0. -/
theorem spec_c9_witness :
    (∀ p f, envMixed.features p = some f →
      0 < f.sr ∧ f.samples ≤ 30 * f.sr) ∧
    envMixed.features "bad.wav" = none ∧
    analyze_music envMixed "bad.wav" none =
      .ok (analysisObj "text" (featPair envMixed "bad.wav")) ∧
    (∃ d : ℚ, (analysisObj "text" (featPair envMixed "good.wav")).lookup
        "duration_seconds" = some (.num d) ∧ 0 ≤ d ∧ d ≤ 30) ∧
    (analysisObj "text" (featPair envMixed "bad.wav")).lookup
        "duration_seconds" = some (.num 0) := by
  have hF : ∀ p f, envMixed.features p = some f →
      0 < f.sr ∧ f.samples ≤ 30 * f.sr := by
    intro p f h
    by_cases hp : p = "bad.wav" <;> simp [envMixed, hp] at h
    rw [← h]
    norm_num
  refine ⟨hF, rfl, rfl, ?_, ?_⟩
  · exact (spec_c9 envMixed "good.wav" none hF).1 _ rfl
  · exact ((spec_c9 envMixed "bad.wav" none hF).2 rfl _ rfl).1

/-- Claim C10: the client facade sends the prompt form field only for a
non-empty prompt string - an empty string is treated like no prompt at all -
and on the server an absent prompt field makes analyze_music fall back to
its fixed built-in prompt. -/
theorem spec_c10 (env : ModelEnv) (audio_path : String) :
    analyzeFormData none = [] ∧
    analyzeFormData (some "") = [] ∧
    (∀ p, p ≠ "" → analyzeFormData (some p) = [("prompt", p)]) ∧
    promptFromForm (analyzeFormData (some "")) = none ∧
    promptFromForm (analyzeFormData none) = none ∧
    analyze_music env audio_path none =
      analyze_music env audio_path (some defaultAnalyzePrompt) := by
  refine ⟨rfl, by simp [analyzeFormData], fun p hp => by
    simp [analyzeFormData, hp], by simp [analyzeFormData, promptFromForm],
    rfl, rfl⟩

/-- Witness for C10: a concrete non-empty prompt is sent as the prompt form
field. -/
theorem spec_c10_witness :
    ("custom prompt" : String) ≠ "" ∧
    analyzeFormData (some "custom prompt") = [("prompt", "custom prompt")] :=
  ⟨by decide, (spec_c10 envOk "a.wav").2.2.1 "custom prompt" (by decide)⟩

theorem runFileCommand_exit (env : CliEnv) (args : CliArgs) (cmd : Cmd) :
    (runFileCommand env args cmd).exitCode =
      (if (match args.audioFile with
           | none => false
           | some path =>
             env.fileExists path &&
               (match env.net cmd with
                | .ok r => args.jsonFlag || (renderHuman cmd r).isSome
                | .error _ => false)) then 0 else 1) := by
  unfold runFileCommand
  cases args.audioFile with
  | none => simp
  | some path =>
    cases hfe : env.fileExists path with
    | false => simp [hfe]
    | true =>
      cases hn : env.net cmd with
      | error e => simp [hfe, hn]
      | ok r =>
        cases hj : args.jsonFlag with
        | true => simp [hfe, hn, hj]
        | false =>
          cases hr : renderHuman cmd r with
          | none => simp [hfe, hn, hj, hr]
          | some lines => simp [hfe, hn, hj, hr]

/-- Claim C3: from the parsed command line on, the client process exits with
code 1 exactly when the invocation fails (the reached network call raised,
the required audio_file argument is missing, or the file does not exist) and
0 otherwise; in particular, a missing audio file argument exits 1 without
any network call, and an HTTP error exits 1. -/
theorem spec_c3 (env : CliEnv) (args : CliArgs) :
    ((mainRun env args).exitCode = if cliSuccess env args then 0 else 1) ∧
    (args.command ≠ .health → args.audioFile = none →
      (mainRun env args).exitCode = 1 ∧ (mainRun env args).calls = []) ∧
    (∀ p e, args.command ≠ .health → args.audioFile = some p →
      env.fileExists p = true → env.net args.command = .error e →
      (mainRun env args).exitCode = 1) := by
  refine ⟨?_, ?_, ?_⟩
  · cases hc : args.command with
    | health =>
      simp only [mainRun, cliSuccess, hc]
      cases hn : env.net .health with
      | error e => simp [hn]
      | ok r =>
        cases hj : args.jsonFlag with
        | true => simp [hn, hj]
        | false =>
          cases hr : renderHuman .health r with
          | none => simp [hn, hj, hr]
          | some lines => simp [hn, hj, hr]
    | analyze => simpa only [mainRun, cliSuccess, hc]
        using runFileCommand_exit env args .analyze
    | partyVibe => simpa only [mainRun, cliSuccess, hc]
        using runFileCommand_exit env args .partyVibe
    | transcribe => simpa only [mainRun, cliSuccess, hc]
        using runFileCommand_exit env args .transcribe
    | caption => simpa only [mainRun, cliSuccess, hc]
        using runFileCommand_exit env args .caption
  · intro hc ha
    cases hcc : args.command <;>
      first
      | exact (hc hcc).elim
      | simp [mainRun, runFileCommand, hcc, ha]
  · intro p e hc ha hf hn
    cases hcc : args.command <;>
      first
      | exact absurd hcc hc
      | (rw [hcc] at hn; simp [mainRun, runFileCommand, hcc, ha, hf, hn])

/-- Witness for C3: concrete invocations showing exit 1 for a missing audio
file argument (without network call), exit 1 for a network error, and exit 0
for a successful invocation. -/
theorem spec_c3_witness :
    (Cmd.analyze ≠ Cmd.health) ∧
    (mainRun cliEnvErr ⟨.analyze, none, none, false⟩).exitCode = 1 ∧
    (mainRun cliEnvErr ⟨.analyze, none, none, false⟩).calls = [] ∧
    cliEnvErr.fileExists "song.mp3" = true ∧
    cliEnvErr.net .caption = .error "timeout" ∧
    (mainRun cliEnvErr ⟨.caption, some "song.mp3", none, false⟩).exitCode = 1 ∧
    cliSuccess cliEnvJson ⟨.analyze, some "song.mp3", none, true⟩ = true ∧
    (mainRun cliEnvJson ⟨.analyze, some "song.mp3", none, true⟩).exitCode
      = 0 := by
  have h1 := (spec_c3 cliEnvErr ⟨.analyze, none, none, false⟩).2.1
    (by decide) rfl
  have h2 := (spec_c3 cliEnvErr ⟨.caption, some "song.mp3", none, false⟩).2.2
    "song.mp3" "timeout" (by decide) rfl rfl rfl
  have h3 := (spec_c3 cliEnvJson ⟨.analyze, some "song.mp3", none, true⟩).1
  refine ⟨by decide, h1.1, h1.2, rfl, rfl, h2, rfl, ?_⟩
  rw [h3]
  rfl

/-- Counterexample to C4 as stated: for the health command, invoking the
client with a nonexistent file path does NOT exit with code 1 before any
network call - in an environment where no file exists but the service is
healthy, the invocation performs the health network call and exits 0. -/
theorem spec_c4_counterexample :
    cliEnvHealthOnly.fileExists "ghost.mp3" = false ∧
    (mainRun cliEnvHealthOnly ⟨.health, some "ghost.mp3", none, false⟩).calls
      = [.health] ∧
    (mainRun cliEnvHealthOnly
      ⟨.health, some "ghost.mp3", none, false⟩).exitCode = 0 :=
  ⟨rfl, rfl, rfl⟩

/-- Claim C4 (amended): for every CLI command other than health, invoking
the client with a file path that does not exist exits with code 1 with no
network call performed. -/
theorem spec_c4 (env : CliEnv) (args : CliArgs) (p : String)
    (hc : args.command ≠ .health) (ha : args.audioFile = some p)
    (hf : env.fileExists p = false) :
    (mainRun env args).exitCode = 1 ∧ (mainRun env args).calls = [] := by
  cases hcc : args.command <;>
    first
    | exact (hc hcc).elim
    | simp [mainRun, runFileCommand, hcc, ha, hf]

/-- Witness for the amended C4: the analyze command on a nonexistent file
exits 1 and performs no network call. -/
theorem spec_c4_witness :
    (Cmd.analyze ≠ Cmd.health) ∧
    cliEnvHealthOnly.fileExists "ghost.mp3" = false ∧
    (mainRun cliEnvHealthOnly
      ⟨.analyze, some "ghost.mp3", none, false⟩).exitCode = 1 ∧
    (mainRun cliEnvHealthOnly
      ⟨.analyze, some "ghost.mp3", none, false⟩).calls = [] := by
  have h := spec_c4 cliEnvHealthOnly ⟨.analyze, some "ghost.mp3", none, false⟩
    "ghost.mp3" (by decide) rfl rfl
  exact ⟨by decide, rfl, h.1, h.2⟩

theorem skipWs_cons_not (c : Char) (l : List Char) (h : isWsChar c = false) :
    skipWs (c :: l) = c :: l := by
  simp [skipWs, h]

theorem skipWs_cons_ws (c : Char) (l : List Char) (h : isWsChar c = true) :
    skipWs (c :: l) = skipWs l := by
  simp [skipWs, h]

theorem parseStrBody_cons_escape (d : Char) (u : Char) (l : List Char)
    (hu : unescChar d = some u) (s : List Char) (rest : List Char)
    (hl : parseStrBody l = some (s, rest)) :
    parseStrBody ('\\' :: d :: l) = some (u :: s, rest) := by
  rw [parseStrBody.eq_def]
  simp [show ¬(('\\' : Char) = '"') by decide, hu, hl]

theorem parseStrBody_cons_plain (c : Char) (h1 : ¬c = '"') (h2 : ¬c = '\\')
    (l : List Char) (s : List Char) (rest : List Char)
    (hl : parseStrBody l = some (s, rest)) :
    parseStrBody (c :: l) = some (c :: s, rest) := by
  rw [parseStrBody.eq_def]
  simp [h1, h2, hl]

theorem parseStrBody_escape (s : List Char) (rest : List Char) :
    parseStrBody (escapeChars s ++ '"' :: rest) = some (s, rest) := by
  induction s with
  | nil =>
    rw [show escapeChars [] ++ '"' :: rest = '"' :: rest by
      simp [escapeChars]]
    rw [parseStrBody.eq_def]
    simp
  | cons c cs ih =>
    simp only [escapeChars, List.append_assoc, List.cons_append]
    by_cases h1 : c = '"'
    · subst h1
      simp only [escChar, if_pos rfl, List.cons_append, List.nil_append]
      exact parseStrBody_cons_escape '"' '"' _ (by decide) cs rest ih
    · by_cases h2 : c = '\\'
      · subst h2
        simp only [escChar, show ¬(('\\' : Char) = '"') by decide,
          if_neg, if_pos rfl, ite_false, ite_true, List.cons_append,
          List.nil_append]
        exact parseStrBody_cons_escape '\\' '\\' _ (by decide) cs rest ih
      · by_cases h3 : c = '\n'
        · subst h3
          simp only [escChar, show ¬(('\n' : Char) = '"') by decide,
            show ¬(('\n' : Char) = '\\') by decide, ite_false, if_pos rfl,
            ite_true, List.cons_append, List.nil_append]
          exact parseStrBody_cons_escape 'n' '\n' _ (by decide) cs rest ih
        · by_cases h4 : c = '\t'
          · subst h4
            simp only [escChar, show ¬(('\t' : Char) = '"') by decide,
              show ¬(('\t' : Char) = '\\') by decide,
              show ¬(('\t' : Char) = '\n') by decide, ite_false,
              if_pos rfl, ite_true, List.cons_append, List.nil_append]
            exact parseStrBody_cons_escape 't' '\t' _ (by decide) cs rest ih
          · by_cases h5 : c = '\r'
            · subst h5
              simp only [escChar, show ¬(('\r' : Char) = '"') by decide,
                show ¬(('\r' : Char) = '\\') by decide,
                show ¬(('\r' : Char) = '\n') by decide,
                show ¬(('\r' : Char) = '\t') by decide, ite_false,
                if_pos rfl, ite_true, List.cons_append, List.nil_append]
              exact parseStrBody_cons_escape 'r' '\r' _ (by decide) cs rest ih
            · simp only [escChar, h1, h2, h3, h4, h5, ite_false,
                List.cons_append, List.nil_append]
              exact parseStrBody_cons_plain c h1 h2 _ cs rest ih

theorem takeWhile_append_not (p : Char → Bool) (l : List Char) (c : Char)
    (r : List Char) (hl : l.all p = true) (hc : p c = false) :
    (l ++ c :: r).takeWhile p = l ∧ (l ++ c :: r).dropWhile p = c :: r := by
  induction l with
  | nil => simp [List.takeWhile_cons, List.dropWhile_cons, hc]
  | cons a l ih =>
    simp only [List.all_cons, Bool.and_eq_true] at hl
    obtain ⟨ha, hl⟩ := hl
    obtain ⟨ht, hd⟩ := ih hl
    simp [List.takeWhile_cons, List.dropWhile_cons, ha, ht, hd]

theorem numStart_facts (d : Char) (hd : (d.isDigit || d == '-') = true) :
    ¬(d = '"') ∧ ¬(d = 't') ∧ ¬(d = 'f') ∧ isNumChar d = true ∧
      isWsChar d = false := by
  refine ⟨?_, ?_, ?_, ?_, ?_⟩
  · intro h; subst h; exact absurd hd (by decide)
  · intro h; subst h; exact absurd hd (by decide)
  · intro h; subst h; exact absurd hd (by decide)
  · have hd2 : d.isDigit = true ∨ (d == '-') = true := by
      simpa using hd
    rcases hd2 with h | h <;> simp [isNumChar, h]
  · cases hw : isWsChar d with
    | false => rfl
    | true =>
      exfalso
      have hw2 : d = ' ' ∨ d = '\n' ∨ d = '\t' ∨ d = '\r' := by
        simpa [isWsChar, or_assoc] using hw
      rcases hw2 with h | h | h | h <;> subst h <;> exact absurd hd (by decide)

theorem parseWVal_dump (v : WVal) (hwf : wvalWF v = true) (c : Char)
    (rest : List Char) (hc : isNumChar c = false) :
    parseWVal (dumpWVal v ++ c :: rest) = some (v, c :: rest) := by
  cases v with
  | s str =>
    have h := parseStrBody_escape str.data (c :: rest)
    simp [dumpWVal, dumpStr, parseWVal, h]
  | b bv =>
    cases bv <;>
      simp [dumpWVal, parseWVal,
            show ¬(('t' : Char) = '"') by decide,
            show ¬(('f' : Char) = '"') by decide,
            show ¬(('f' : Char) = 't') by decide]
  | n tok =>
    cases htok : tok.data with
    | nil => simp [wvalWF, numTokWF, htok] at hwf
    | cons d ds =>
      simp only [wvalWF, numTokWF, htok, Bool.and_eq_true] at hwf
      obtain ⟨hd, hds⟩ := hwf
      obtain ⟨hne1, hne2, hne3, hnum, _⟩ := numStart_facts d hd
      obtain ⟨ht, hdr⟩ := takeWhile_append_not isNumChar ds c rest hds hc
      have hmk : String.mk (d :: ds) = tok := by
        rw [← htok]
      simp [dumpWVal, htok, parseWVal, hne1, hne2, hne3, hnum, ht, hdr, hmk]

theorem skipWs_dumpWVal (v : WVal) (hwf : wvalWF v = true) (l : List Char) :
    skipWs (dumpWVal v ++ l) = dumpWVal v ++ l := by
  cases v with
  | s str =>
    simp only [dumpWVal, dumpStr, List.cons_append]
    exact skipWs_cons_not _ _ (by decide)
  | b bv =>
    cases bv <;> simp only [dumpWVal, List.cons_append] <;>
      exact skipWs_cons_not _ _ (by decide)
  | n tok =>
    cases htok : tok.data with
    | nil => simp [wvalWF, numTokWF, htok] at hwf
    | cons d ds =>
      simp only [wvalWF, numTokWF, htok, Bool.and_eq_true] at hwf
      simp only [dumpWVal, htok, List.cons_append]
      exact skipWs_cons_not _ _ (numStart_facts d hwf.1).2.2.2.2

theorem dumpFields_head (kv : String × WVal) (fs : WObj) :
    ∃ t, dumpFields (kv :: fs) = '"' :: t := by
  obtain ⟨k, v⟩ := kv
  cases fs with
  | nil => exact ⟨_, rfl⟩
  | cons kv2 fs2 => exact ⟨_, rfl⟩

theorem parseFields_dump (fs : WObj) :
    fs ≠ [] → wobjWF fs = true →
    ∀ (rest : List Char) (fuel : ℕ), fs.length < fuel →
      parseFields fuel (dumpFields fs ++ '\n' :: '\x7d' :: rest) =
        some (fs, rest) := by
  induction fs with
  | nil => intro h; exact absurd rfl h
  | cons kv fs ih =>
    obtain ⟨k, v⟩ := kv
    intro _ hwf rest fuel hfuel
    have hwv : wvalWF v = true := by
      simp only [wobjWF, List.all_cons, Bool.and_eq_true] at hwf
      exact hwf.1
    have hwf2 : wobjWF fs = true := by
      simp only [wobjWF, List.all_cons, Bool.and_eq_true] at hwf
      exact hwf.2
    cases fuel with
    | zero => omega
    | succ m =>
      cases fs with
      | nil =>
        simp only [dumpFields, dumpField, dumpStr, List.cons_append,
          List.append_assoc, List.nil_append]
        rw [parseFields.eq_def]
        simp only [if_true]
        rw [parseStrBody_escape]
        simp only
        rw [skipWs_cons_not ':' _ (by decide)]
        simp only [if_true, show ((':' : Char) = ':') = True by simp]
        rw [skipWs_cons_ws ' ' _ (by decide), skipWs_dumpWVal v hwv]
        rw [parseWVal_dump v hwv '\n' _ (by decide)]
        simp only
        rw [skipWs_cons_ws '\n' _ (by decide),
          skipWs_cons_not '\x7d' _ (by decide)]
        simp only [show (('\x7d' : Char) = ',') = False by simp,
          show (('\x7d' : Char) = '\x7d') = True by simp, if_false, if_true]
      | cons kv2 fs2 =>
        have hm : (kv2 :: fs2).length < m := by
          simp only [List.length_cons] at hfuel ⊢
          omega
        simp only [dumpFields, dumpField, dumpStr, List.cons_append,
          List.append_assoc, List.nil_append]
        rw [parseFields.eq_def]
        simp only [if_true]
        rw [parseStrBody_escape]
        simp only
        rw [skipWs_cons_not ':' _ (by decide)]
        simp only [if_true, show ((':' : Char) = ':') = True by simp]
        rw [skipWs_cons_ws ' ' _ (by decide), skipWs_dumpWVal v hwv]
        rw [parseWVal_dump v hwv ',' _ (by decide)]
        simp only
        rw [skipWs_cons_not ',' _ (by decide)]
        simp only [show ((',' : Char) = ',') = True by simp, if_true]
        rw [skipWs_cons_ws '\n' _ (by decide), skipWs_cons_ws ' ' _
          (by decide), skipWs_cons_ws ' ' _ (by decide)]
        obtain ⟨t, ht⟩ := dumpFields_head kv2 fs2
        rw [ht, List.cons_append, skipWs_cons_not '"' _ (by decide),
          ← List.cons_append, ← ht]
        rw [ih (by simp) hwf2 rest m hm]

theorem dumpFields_length (fs : WObj) :
    fs.length ≤ (dumpFields fs).length := by
  induction fs with
  | nil => simp [dumpFields]
  | cons kv fs ih =>
    obtain ⟨k, v⟩ := kv
    cases fs with
    | nil =>
      simp only [dumpFields, dumpField, dumpStr, List.length_cons,
        List.length_append, List.length_nil]
      omega
    | cons kv2 fs2 =>
      simp only [dumpFields, dumpField, dumpStr, List.length_cons,
        List.length_append, List.length_nil] at ih ⊢
      omega

theorem parseObjChars_dump (v : WObj) (hwf : wobjWF v = true) :
    parseObjChars (dumpsIndent v) = some (v, []) := by
  cases v with
  | nil => rfl
  | cons kv fs =>
    simp only [dumpsIndent, parseObjChars, List.cons_append, if_true]
    rw [skipWs_cons_ws '\n' _ (by decide), skipWs_cons_ws ' ' _ (by decide),
      skipWs_cons_ws ' ' _ (by decide)]
    obtain ⟨t, ht⟩ := dumpFields_head kv fs
    rw [ht, List.cons_append, skipWs_cons_not '"' _ (by decide)]
    simp only [show (('"' : Char) = '\x7d') = False by simp, if_false]
    rw [← List.cons_append, ← ht]
    apply parseFields_dump (kv :: fs) (by simp) hwf
    have h1 := dumpFields_length (kv :: fs)
    simp only [List.length_cons, List.length_append] at h1 ⊢
    omega

theorem parseObj_render (v : WObj) (hwf : wobjWF v = true) :
    parseObj (renderJsonString v) = some v := by
  unfold parseObj renderJsonString
  rw [show (String.mk (dumpsIndent v)).data = dumpsIndent v from rfl]
  rw [parseObjChars_dump v hwf]

/-- Claim C8: with the json flag, the client prints exactly one line, namely
the indent-2 serialization of the parsed server response, and that printed
document is valid JSON denoting exactly the response object: parsing the
printed text (for any response whose number tokens are well-formed) yields
precisely the object the server sent. -/
theorem spec_c8 (env : CliEnv) (args : CliArgs) (p : String) (v : WObj)
    (hj : args.jsonFlag = true) (ha : args.audioFile = some p)
    (hf : env.fileExists p = true) (hn : env.net args.command = .ok v)
    (hwf : wobjWF v = true) :
    (mainRun env args).output = [renderJsonString v] ∧
    parseObj (renderJsonString v) = some v := by
  refine ⟨?_, parseObj_render v hwf⟩
  cases hc : args.command <;> rw [hc] at hn <;>
    simp [mainRun, runFileCommand, hc, ha, hf, hn, hj]

/-- Witness for C8: a concrete invocation with the json flag prints the
serialized sample body, and parsing that printed text returns exactly the
sample body. -/
theorem spec_c8_witness :
    (⟨Cmd.analyze, some "song.mp3", none, true⟩ : CliArgs).jsonFlag = true ∧
    cliEnvJson.fileExists "song.mp3" = true ∧
    cliEnvJson.net .analyze = .ok wObjSample ∧
    wobjWF wObjSample = true ∧
    (mainRun cliEnvJson ⟨.analyze, some "song.mp3", none, true⟩).output =
      [renderJsonString wObjSample] ∧
    parseObj (renderJsonString wObjSample) = some wObjSample := by
  have h := spec_c8 cliEnvJson ⟨.analyze, some "song.mp3", none, true⟩
    "song.mp3" wObjSample rfl rfl rfl rfl (by decide)
  exact ⟨rfl, rfl, rfl, by decide, h.1, h.2⟩
